import Mathlib

/-!
Verification of the eep text-layout core: the styled-string data model
(segments, direction invariant, builder), the measurement algorithm, and
the direction/alignment cursor machine, shallowly embedded from the Go
sources (`text` package and `text/box.go`). Machine floating-point values
are modelled as exact rationals; Go strings are modelled as lists of
characters.
-/

/-- Convert a Lean string literal to the character-list representation
used throughout the embedding. -/
def str (s : String) : List Char := s.toList

namespace Eep

/-- Go strings as character lists. -/
abbrev Str := List Char

/-- `font.TextDirection`, an alias of ebiten's `text.Direction`.
The Go zero value is `DirectionLeftToRight`. -/
inductive TextDirection where
  | leftToRight
  | rightToLeft
  | topToBottomAndLeftToRight
  | topToBottomAndRightToLeft
deriving DecidableEq, Repr

instance : Inhabited TextDirection := ⟨.leftToRight⟩

/-- The font-face collaborator (`font.Face` / its ebiten `TextFace`):
an opaque handle carrying a writing direction, horizontal and vertical
ascent/descent metrics, and a text-advance query. The repository code
only reads these fields, so the face is modelled as exactly this record. -/
structure Face where
  direction : TextDirection
  hAscent : ℚ
  hDescent : ℚ
  vAscent : ℚ
  vDescent : ℚ
  advance : Str → ℚ

/-- `text.Style`: a font face plus a color (the color never influences
layout; it is carried as an opaque number). -/
structure Style where
  face : Face
  color : ℕ

/-- `text.segment`: a text segment with no line breaks and a single
consistent style, or the distinguished newline marker (text `"\n"`). -/
structure Segment where
  text : Str
  style : Style

/-- `text.String`: a string of styled text, an ordered segment sequence
plus its canonical direction. The Go zero value has an empty segment
list and direction `DirectionLeftToRight` (the zero direction). -/
structure String where
  segments : List Segment
  direction : TextDirection

instance : Inhabited String := ⟨⟨[], .leftToRight⟩⟩

/-- `text.StringBuilder`: the mutable accumulator. The zero value has an
empty `String` and `nonZero = false`. -/
structure StringBuilder where
  s : String
  nonZero : Bool

/-- The zero-value `StringBuilder`, ready for use. -/
def zeroBuilder : StringBuilder := ⟨⟨[], .leftToRight⟩, false⟩

/-- Go's `strings.Lines`: the spans of `t` split after each newline;
every span ends in a newline except possibly the last, and the empty
string yields no spans. -/
def stringsLines : Str → List Str
  | [] => []
  | c :: rest =>
    if c = '\n' then ['\n'] :: stringsLines rest
    else
      match stringsLines rest with
      | [] => [[c]]
      | l :: ls => (c :: l) :: ls

/-- Go's `strings.CutSuffix(line, "\n")`: strip one trailing newline,
reporting whether one was stripped. -/
def cutSuffixNewline (l : Str) : Str × Bool :=
  if l.getLast? = some '\n' then (l.dropLast, true) else (l, false)

/-- The loop body of `text.appendSegmentsFromText`: append a segment
with the newline-stripped line content, followed by a newline-marker
segment when a newline was stripped. -/
def appendLineSegs (style : Style) (s : List Segment) (line : Str) : List Segment :=
  let cut := cutSuffixNewline line
  let s := s ++ [⟨cut.1, style⟩]
  if cut.2 then s ++ [⟨['\n'], style⟩] else s

/-- `text.appendSegmentsFromText`: run the per-line loop body over the
lines of `text`. -/
def appendSegmentsFromText (s : List Segment) (text : Str) (style : Style) : List Segment :=
  (stringsLines text).foldl (appendLineSegs style) s

/-- A panic message, as a character list. -/
def appendPanicMessage : Str := str "cannot append different text direction to builder"

/-- A panic message, as a character list. -/
def concatPanicMessage : Str :=
  str "cannot concatenate two styled strings with different text direction"

/-- Outcome of `StringBuilder.Append`. Go signals the direction-mismatch
case with `panic`; `panicked` records the panic message together with
the builder's (pointer-receiver) state observable after the unwind. -/
inductive AppendResult where
  | ok (b : StringBuilder)
  | panicked (msg : Str) (b : StringBuilder)

/-- Whether an `Append` call panicked. -/
def AppendResult.isPanicked : AppendResult → Bool
  | .ok _ => false
  | .panicked _ _ => true

/-- Outcome of `String.Concat`. Go signals the direction-mismatch case
with `panic`, producing no result value. -/
inductive ConcatResult where
  | ok (s : String)
  | panicked (msg : Str)

/-- Whether a `Concat` call panicked. -/
def ConcatResult.isPanicked : ConcatResult → Bool
  | .ok _ => false
  | .panicked _ => true

/-- `StringBuilder.Append`: locks the direction on the first call
(`nonZero` governs, not segment emptiness), panics on a direction
mismatch, and otherwise appends the segments split from `text`. -/
def StringBuilder.Append (b : StringBuilder) (text : Str) (style : Style) : AppendResult :=
  let b :=
    if b.nonZero = false then
      { b with s := { b.s with direction := style.face.direction }, nonZero := true }
    else b
  if b.s.direction ≠ style.face.direction then
    .panicked appendPanicMessage b
  else
    .ok { b with s := { b.s with segments := appendSegmentsFromText b.s.segments text style } }

/-- `StringBuilder.String`: the builder's accumulated `String`. -/
def StringBuilder.String (b : StringBuilder) : String := b.s

/-- `String.Concat`: panics when the two direction fields differ,
otherwise concatenates the segment sequences, keeping `s`'s direction. -/
def String.Concat (s t : String) : ConcatResult :=
  if s.direction ≠ t.direction then
    .panicked concatPanicMessage
  else
    .ok ⟨s.segments ++ t.segments, s.direction⟩

/-- `Style.Apply`: build a `String` from one `Append` on a zero-value
builder. That first `Append` can never hit the mismatch panic; the
`panicked` arm below is unreachable and returns the unwound state only
to keep the function total. -/
def Style.Apply (sty : Style) (text : Str) : String :=
  match StringBuilder.Append zeroBuilder text sty with
  | .ok b => b.String
  | .panicked _ b => b.String

/-- The recursion behind `String.lines`: split the segment sequence into
contiguous spans, each ending at (and including) a newline-marker
segment, always followed by the (possibly empty) remainder span. -/
def linesList : List Segment → List (List Segment)
  | [] => [[]]
  | seg :: rest =>
    if seg.text = ['\n'] then [seg] :: linesList rest
    else
      match linesList rest with
      | [] => [[seg]]
      | l :: ls => (seg :: l) :: ls

/-- `String.lines`: the line partition of the segment sequence. -/
def String.lines (s : String) : List (List Segment) := linesList s.segments

/-- The line-size query inlined in `text.measureLine`, which is also
the spec's `faceLineSize(face, lineSpacing) =
(ascent + descent) * (1 + lineSpacing)`: the ascent/descent pair is the
horizontal one for horizontal run directions and the vertical one for
vertical run directions. -/
def faceLineSize (f : Face) (direction : TextDirection) (lineSpacing : ℚ) : ℚ :=
  if direction = .leftToRight ∨ direction = .rightToLeft then
    (f.hAscent + f.hDescent) * (lineSpacing + 1)
  else
    (f.vAscent + f.vDescent) * (lineSpacing + 1)

/-- The loop body of `text.measureLine`: the primary extent adds the
advance of a non-marker segment, the secondary extent maxes in the
segment face's line size. -/
def measureStep (direction : TextDirection) (lineSpacing : ℚ) (acc : ℚ × ℚ)
    (seg : Segment) : ℚ × ℚ :=
  (if seg.text ≠ ['\n'] then acc.1 + seg.style.face.advance seg.text else acc.1,
   max acc.2 (faceLineSize seg.style.face direction lineSpacing))

/-- `text.measureLine`: fold the loop body over a line's segments. -/
def measureLine (segments : List Segment) (direction : TextDirection) (lineSpacing : ℚ) :
    ℚ × ℚ :=
  segments.foldl (measureStep direction lineSpacing) (0, 0)

/-- `geom.Dimensions`. -/
structure Dimensions where
  X : ℚ
  Y : ℚ
deriving DecidableEq, Repr

/-- `geom.Dim`. -/
def Dim (x y : ℚ) : Dimensions := ⟨x, y⟩

/-- `geom.Point`. -/
structure Point where
  X : ℚ
  Y : ℚ
deriving DecidableEq, Repr

/-- The final step of `String.Measure`: map the accumulated
(primary, secondary) totals onto concrete X/Y according to whether the
direction is horizontal or vertical. -/
def measureTotalsToDim (direction : TextDirection) (acc : ℚ × ℚ) : Dimensions :=
  if direction = .leftToRight ∨ direction = .rightToLeft then
    Dim acc.1 acc.2
  else
    Dim acc.2 acc.1

/-- `String.Measure`: accumulate `primary = max` and `secondary = sum`
across the line partition, then map primary/secondary onto X/Y. -/
def String.Measure (s : String) (lineSpacing : ℚ) : Dimensions :=
  measureTotalsToDim s.direction
    (s.lines.foldl
      (fun acc line =>
        (max acc.1 (measureLine line s.direction lineSpacing).1,
         acc.2 + (measureLine line s.direction lineSpacing).2))
      ((0 : ℚ), (0 : ℚ)))

/-- `text.Alignment`: `AutoAlign`, `Left`, `Center`, `Right`. -/
inductive Alignment where
  | autoAlign
  | left
  | center
  | right
deriving DecidableEq, Repr

/-- `text.VertAlignment`: `AutoVertAlign`, `Top`, `Middle`, `Bottom`. -/
inductive VertAlignment where
  | autoVertAlign
  | top
  | middle
  | bottom
deriving DecidableEq, Repr

/-- `text.boxDrawMachine`: the cursor state machine. The Go original
stores direction-and-alignment-selected closures; the embedding stores
the selection parameters and dispatches on them in each operation, which
yields identical behavior. -/
structure BoxDrawMachine where
  pos : Point
  orig : Point
  boxDim : Dimensions
  txtDim : Dimensions
  dir : TextDirection
  align : Alignment
  valign : VertAlignment

/-- `text.newBoxDrawMachine`: constructs the machine and runs its `init`
step, which sets the block-level coordinate (Y for horizontal
directions, X for vertical ones); the other coordinate keeps the Go
zero value `0` until `startLine` overwrites it. -/
def newBoxDrawMachine (orig : Point) (boxDim txtDim : Dimensions) (dir : TextDirection)
    (align : Alignment) (valign : VertAlignment) : BoxDrawMachine :=
  let pos : Point :=
    match dir with
    | .leftToRight | .rightToLeft =>
      match valign with
      | .top | .autoVertAlign => ⟨0, orig.Y⟩
      | .middle => ⟨0, orig.Y + boxDim.Y / 2 - txtDim.Y / 2⟩
      | .bottom => ⟨0, orig.Y + boxDim.Y - txtDim.Y⟩
    | .topToBottomAndLeftToRight =>
      match align with
      | .left | .autoAlign => ⟨orig.X, 0⟩
      | .center => ⟨orig.X + boxDim.X / 2 - txtDim.X / 2, 0⟩
      | .right => ⟨orig.X + boxDim.X - txtDim.X, 0⟩
    | .topToBottomAndRightToLeft =>
      match align with
      | .left => ⟨orig.X + txtDim.X, 0⟩
      | .center => ⟨orig.X + boxDim.X - (boxDim.X - txtDim.X) / 2, 0⟩
      | .right | .autoAlign => ⟨orig.X + boxDim.X, 0⟩
  ⟨pos, orig, boxDim, txtDim, dir, align, valign⟩

/-- `boxDrawMachine.StartLine`: sets the per-line coordinate (X for
horizontal directions, Y for vertical ones) from the line's primary
extent. -/
def BoxDrawMachine.StartLine (m : BoxDrawMachine) (primary : ℚ) : BoxDrawMachine :=
  match m.dir with
  | .leftToRight =>
    match m.align with
    | .left | .autoAlign => { m with pos := { m.pos with X := m.orig.X } }
    | .center => { m with pos := { m.pos with X := m.orig.X + (m.boxDim.X - primary) / 2 } }
    | .right => { m with pos := { m.pos with X := m.orig.X + m.boxDim.X - primary } }
  | .rightToLeft =>
    match m.align with
    | .left => { m with pos := { m.pos with X := m.orig.X + primary } }
    | .center =>
      { m with pos := { m.pos with X := m.orig.X + m.boxDim.X - (m.boxDim.X - primary) / 2 } }
    | .right | .autoAlign => { m with pos := { m.pos with X := m.orig.X + m.boxDim.X } }
  | .topToBottomAndLeftToRight | .topToBottomAndRightToLeft =>
    match m.valign with
    | .top | .autoVertAlign => { m with pos := { m.pos with Y := m.orig.Y } }
    | .middle => { m with pos := { m.pos with Y := m.orig.Y + (m.boxDim.Y - primary) / 2 } }
    | .bottom => { m with pos := { m.pos with Y := m.orig.Y + m.boxDim.Y - primary } }

/-- `boxDrawMachine.MoveInLine`: advances the primary coordinate,
increasing for LTR-primary and vertical directions, decreasing for
RTL-primary. -/
def BoxDrawMachine.MoveInLine (m : BoxDrawMachine) (a : ℚ) : BoxDrawMachine :=
  match m.dir with
  | .leftToRight => { m with pos := { m.pos with X := m.pos.X + a } }
  | .rightToLeft => { m with pos := { m.pos with X := m.pos.X - a } }
  | .topToBottomAndLeftToRight | .topToBottomAndRightToLeft =>
    { m with pos := { m.pos with Y := m.pos.Y + a } }

/-- `boxDrawMachine.EndLine`: advances the secondary coordinate,
increasing except for the RTL-stacking direction, which decreases. -/
def BoxDrawMachine.EndLine (m : BoxDrawMachine) (a : ℚ) : BoxDrawMachine :=
  match m.dir with
  | .leftToRight | .rightToLeft => { m with pos := { m.pos with Y := m.pos.Y + a } }
  | .topToBottomAndLeftToRight => { m with pos := { m.pos with X := m.pos.X + a } }
  | .topToBottomAndRightToLeft => { m with pos := { m.pos with X := m.pos.X - a } }

/-- `boxDrawMachine.X`. -/
def BoxDrawMachine.X (m : BoxDrawMachine) : ℚ := m.pos.X

/-- `boxDrawMachine.Y`. -/
def BoxDrawMachine.Y (m : BoxDrawMachine) : ℚ := m.pos.Y

/-- The spec's alignment vocabulary `{Start, Center, End, Auto}`;
`finish` stands for `End`. -/
inductive AlignChoice where
  | start
  | center
  | finish
  | auto
deriving DecidableEq, Repr

/-- The spec's renaming of the code's `Alignment` values. -/
def alignChoice : Alignment → AlignChoice
  | .autoAlign => .auto
  | .left => .start
  | .center => .center
  | .right => .finish

/-- The spec's renaming of the code's `VertAlignment` values. -/
def vertAlignChoice : VertAlignment → AlignChoice
  | .autoVertAlign => .auto
  | .top => .start
  | .middle => .center
  | .bottom => .finish

/-- The spec's positioning formula table: `Start → origin`,
`Center → origin + (boxExtent - relevantLen)/2`,
`End → origin + boxExtent - relevantLen`, and `Auto` resolving to
`Start` or `End` according to whether the axis's natural flow start is
the origin-side edge. -/
def specCoord (c : AlignChoice) (flowStartAtOrigin : Bool) (origin boxExtent relevantLen : ℚ) :
    ℚ :=
  match c with
  | .start => origin
  | .center => origin + (boxExtent - relevantLen) / 2
  | .finish => origin + boxExtent - relevantLen
  | .auto =>
    if flowStartAtOrigin then origin else origin + boxExtent - relevantLen

/-- Which alignment value governs block-level (init) positioning:
`VertAlign` for horizontal directions, `Align` for vertical ones. -/
def blockChoice (dir : TextDirection) (align : Alignment) (valign : VertAlignment) :
    AlignChoice :=
  match dir with
  | .leftToRight | .rightToLeft => vertAlignChoice valign
  | .topToBottomAndLeftToRight | .topToBottomAndRightToLeft => alignChoice align

/-- Which alignment value governs per-line (startLine) positioning. -/
def lineChoice (dir : TextDirection) (align : Alignment) (valign : VertAlignment) :
    AlignChoice :=
  match dir with
  | .leftToRight | .rightToLeft => alignChoice align
  | .topToBottomAndLeftToRight | .topToBottomAndRightToLeft => vertAlignChoice valign

/-- Whether the stacking (block) axis's natural flow start is the
origin-side edge: true except for RTL stacking. -/
def blockFlowStartAtOrigin : TextDirection → Bool
  | .topToBottomAndRightToLeft => false
  | _ => true

/-- Whether the advance (line) axis's natural flow start is the
origin-side edge: true except for RTL-primary. -/
def lineFlowStartAtOrigin : TextDirection → Bool
  | .rightToLeft => false
  | _ => true

/-- The machine coordinate on the block-level (stacking) axis. -/
def blockAxisCoord (m : BoxDrawMachine) : ℚ :=
  match m.dir with
  | .leftToRight | .rightToLeft => m.pos.Y
  | .topToBottomAndLeftToRight | .topToBottomAndRightToLeft => m.pos.X

/-- The machine coordinate on the per-line (advance) axis. -/
def lineAxisCoord (m : BoxDrawMachine) : ℚ :=
  match m.dir with
  | .leftToRight | .rightToLeft => m.pos.X
  | .topToBottomAndLeftToRight | .topToBottomAndRightToLeft => m.pos.Y

/-- The block-positioning axis's component of a point. -/
def blockOriginCoord (dir : TextDirection) (p : Point) : ℚ :=
  match dir with
  | .leftToRight | .rightToLeft => p.Y
  | .topToBottomAndLeftToRight | .topToBottomAndRightToLeft => p.X

/-- The block-positioning axis's component of a dimension pair. -/
def blockExtent (dir : TextDirection) (d : Dimensions) : ℚ :=
  match dir with
  | .leftToRight | .rightToLeft => d.Y
  | .topToBottomAndLeftToRight | .topToBottomAndRightToLeft => d.X

/-- The line-positioning axis's component of a point. -/
def lineOriginCoord (dir : TextDirection) (p : Point) : ℚ :=
  match dir with
  | .leftToRight | .rightToLeft => p.X
  | .topToBottomAndLeftToRight | .topToBottomAndRightToLeft => p.Y

/-- The line-positioning axis's component of a dimension pair. -/
def lineExtent (dir : TextDirection) (d : Dimensions) : ℚ :=
  match dir with
  | .leftToRight | .rightToLeft => d.X
  | .topToBottomAndLeftToRight | .topToBottomAndRightToLeft => d.Y

/-- The claim-side reading of `Append`'s per-line behavior (spec §4.1):
one segment with the newline-stripped content, then a newline-marker
segment exactly when a newline was stripped. -/
def segsOfLine (style : Style) (line : Str) : List Segment :=
  let cut := cutSuffixNewline line
  ⟨cut.1, style⟩ :: (if cut.2 then [⟨['\n'], style⟩] else [])

/-- Apply `f` to the last element of a list, if any. -/
def modifyLast (f : α → α) : List α → List α
  | [] => []
  | [a] => [f a]
  | a :: b :: rest => a :: modifyLast f (b :: rest)

/-- A concrete advance metric: `"Hello"` measures 50, any other text
measures its character count. -/
def helloAdvance : Str → ℚ := fun t => if t = str "Hello" then 50 else (t.length : ℚ)

/-- A concrete horizontal left-to-right face with
`lineSize(0) = (12 + 8) * 1 = 20` and `advance("Hello") = 50`. -/
def helloHFace : Face := ⟨.leftToRight, 12, 8, 9, 11, helloAdvance⟩

/-- A concrete vertical face with vertical
`lineSize(0) = (12 + 8) * 1 = 20` and `advance("Hello") = 50`. -/
def helloVFace : Face := ⟨.topToBottomAndLeftToRight, 3, 4, 12, 8, helloAdvance⟩

/-- A style over the concrete horizontal face. -/
def helloHStyle : Style := ⟨helloHFace, 0⟩

/-- A style over the concrete vertical face. -/
def helloVStyle : Style := ⟨helloVFace, 0⟩

/-- The builder state after one `Append` of empty text under a
vertical-direction style: no segments were ever added, yet the
direction is locked vertical. -/
def vLockedEmptyBuilder : StringBuilder := ⟨⟨[], .topToBottomAndLeftToRight⟩, true⟩

/-- Claim C2, counterexample: for HorizontalRTL per-line `Start` (`Left`)
alignment with origin 0, box extent 100 and line primary extent 40, the
machine's coordinate after `startLine` is 40 (origin plus the line
length), while the claimed formula `Start → coord = origin` gives 0. -/
theorem alignment_start_rtl_counterexample :
    ((newBoxDrawMachine ⟨0, 0⟩ (Dim 100 20) (Dim 40 20)
        .rightToLeft .left .autoVertAlign).StartLine 40).X = 40 ∧
    specCoord (alignChoice .left) (lineFlowStartAtOrigin .rightToLeft) 0 100 40 = 0 ∧
    ((newBoxDrawMachine ⟨0, 0⟩ (Dim 100 20) (Dim 40 20)
        .rightToLeft .left .autoVertAlign).StartLine 40).X ≠
      specCoord (alignChoice .left) (lineFlowStartAtOrigin .rightToLeft) 0 100 40 := by
  refine ⟨?_, ?_, ?_⟩ <;>
    norm_num [newBoxDrawMachine, BoxDrawMachine.StartLine, BoxDrawMachine.X, Dim,
      specCoord, alignChoice, lineFlowStartAtOrigin]

/-- Claim C2, amended: the spec's formula table (`Start → origin`,
`Center → origin + (boxExtent - relevantLen)/2`,
`End → origin + boxExtent - relevantLen`, `Auto` resolving by natural
flow start) gives the machine coordinate for every block-level and
per-line positioning, except that for HorizontalRTL per-line
positioning and for VerticalRTLStack block-level positioning (all
alignment values, not only the flagged Center) the machine coordinate is
the formula's value plus `relevantLen`: the cursor marks the far edge of
the positioned extent rather than its origin-side edge. The HorizontalLTR
example with box origin (0,0), box size (100,20) and one line of primary
length 40 yields X = 0 / 30 / 60 for Start / Center / End. -/
theorem alignment_coordinate_table :
    (∀ (orig : Point) (boxDim txtDim : Dimensions) (dir : TextDirection) (align : Alignment)
        (valign : VertAlignment) (p : ℚ),
      blockAxisCoord (newBoxDrawMachine orig boxDim txtDim dir align valign) =
        specCoord (blockChoice dir align valign) (blockFlowStartAtOrigin dir)
          (blockOriginCoord dir orig) (blockExtent dir boxDim) (blockExtent dir txtDim) +
        (if dir = .topToBottomAndRightToLeft then blockExtent dir txtDim else 0) ∧
      lineAxisCoord ((newBoxDrawMachine orig boxDim txtDim dir align valign).StartLine p) =
        specCoord (lineChoice dir align valign) (lineFlowStartAtOrigin dir)
          (lineOriginCoord dir orig) (lineExtent dir boxDim) p +
        (if dir = .rightToLeft then p else 0)) ∧
    ((newBoxDrawMachine ⟨0, 0⟩ (Dim 100 20) (Dim 40 20)
        .leftToRight .left .autoVertAlign).StartLine 40).X = 0 ∧
    ((newBoxDrawMachine ⟨0, 0⟩ (Dim 100 20) (Dim 40 20)
        .leftToRight .center .autoVertAlign).StartLine 40).X = 30 ∧
    ((newBoxDrawMachine ⟨0, 0⟩ (Dim 100 20) (Dim 40 20)
        .leftToRight .right .autoVertAlign).StartLine 40).X = 60 := by
  refine ⟨?_, ?_, ?_, ?_⟩
  case refine_2 =>
    norm_num [newBoxDrawMachine, BoxDrawMachine.StartLine, BoxDrawMachine.X, Dim]
  case refine_3 =>
    norm_num [newBoxDrawMachine, BoxDrawMachine.StartLine, BoxDrawMachine.X, Dim]
  case refine_4 =>
    norm_num [newBoxDrawMachine, BoxDrawMachine.StartLine, BoxDrawMachine.X, Dim]
  intro orig boxDim txtDim dir align valign p
  cases dir <;> cases align <;> cases valign <;>
    constructor <;>
    simp [newBoxDrawMachine, BoxDrawMachine.StartLine, BoxDrawMachine.X, blockAxisCoord,
      lineAxisCoord, specCoord, alignChoice, vertAlignChoice, blockChoice, lineChoice,
      blockFlowStartAtOrigin, lineFlowStartAtOrigin, blockOriginCoord, blockExtent,
      lineOriginCoord, lineExtent] <;>
    ring

/-- Claim C3, counterexample: VerticalRTLStack, box origin (0,0), box
X-extent 100, block X-extent 40, `Align = Center`: the machine's
block-level X coordinate is 70, not the claimed 80. -/
theorem vertical_rtl_center_not_eighty :
    (newBoxDrawMachine ⟨0, 0⟩ (Dim 100 20) (Dim 40 20)
      .topToBottomAndRightToLeft .center .autoVertAlign).X = 70 ∧
    (newBoxDrawMachine ⟨0, 0⟩ (Dim 100 20) (Dim 40 20)
      .topToBottomAndRightToLeft .center .autoVertAlign).X ≠ 80 := by
  refine ⟨?_, ?_⟩ <;>
    norm_num [newBoxDrawMachine, BoxDrawMachine.X, Dim]

/-- Claim C3, amended: with box origin (0,0), box X-extent 100 and block
X-extent 40, `Align = Center` positions the block at X = 30 for
VerticalLTRStack and at X = 70 for VerticalRTLStack, whatever the box's
Y extent, the block's Y extent and the vertical alignment. -/
theorem vertical_center_block_start_values :
    ∀ (h tY : ℚ) (valign : VertAlignment),
      (newBoxDrawMachine ⟨0, 0⟩ (Dim 100 h) (Dim 40 tY)
        .topToBottomAndLeftToRight .center valign).X = 30 ∧
      (newBoxDrawMachine ⟨0, 0⟩ (Dim 100 h) (Dim 40 tY)
        .topToBottomAndRightToLeft .center valign).X = 70 := by
  intro h tY valign
  constructor <;>
    simp [newBoxDrawMachine, BoxDrawMachine.X, Dim] <;> norm_num

/-- Claim C4, confirmed: VerticalRTLStack block-level `Center` computes
`coord = origin + boxExtent - (boxExtent - blockLen)/2` for every
origin, box extent and block extent; at origin 0, box extent 100 and
block extent 40 this gives 70, which differs from the symmetric
`origin + (boxExtent - blockLen)/2 = 30` used elsewhere. -/
theorem vertical_rtl_block_center_asymmetric :
    (∀ (orig : Point) (boxDim txtDim : Dimensions) (valign : VertAlignment),
      (newBoxDrawMachine orig boxDim txtDim .topToBottomAndRightToLeft .center valign).X =
        orig.X + boxDim.X - (boxDim.X - txtDim.X) / 2) ∧
    (newBoxDrawMachine ⟨0, 0⟩ (Dim 100 20) (Dim 40 20)
      .topToBottomAndRightToLeft .center .autoVertAlign).X = 70 ∧
    specCoord .center (blockFlowStartAtOrigin .topToBottomAndRightToLeft) 0 100 40 = 30 ∧
    (newBoxDrawMachine ⟨0, 0⟩ (Dim 100 20) (Dim 40 20)
        .topToBottomAndRightToLeft .center .autoVertAlign).X ≠
      specCoord .center (blockFlowStartAtOrigin .topToBottomAndRightToLeft) 0 100 40 := by
  refine ⟨?_, ?_, ?_, ?_⟩
  case refine_2 => norm_num [newBoxDrawMachine, BoxDrawMachine.X, Dim]
  case refine_3 => norm_num [specCoord, blockFlowStartAtOrigin]
  case refine_4 => norm_num [newBoxDrawMachine, BoxDrawMachine.X, Dim, specCoord,
    blockFlowStartAtOrigin]
  intro orig boxDim txtDim valign
  simp [newBoxDrawMachine, BoxDrawMachine.X]

theorem linesList_ne_nil : ∀ xs : List Segment, linesList xs ≠ []
  | [] => by simp [linesList]
  | seg :: rest => by
    unfold linesList
    by_cases h : seg.text = ['\n']
    · simp [h]
    · simp only [if_neg h]
      split <;> simp

theorem linesList_flatten : ∀ xs : List Segment, (linesList xs).flatten = xs
  | [] => by simp [linesList]
  | seg :: rest => by
    unfold linesList
    by_cases h : seg.text = ['\n']
    · simp [h, linesList_flatten rest]
    · simp only [if_neg h]
      cases hl : linesList rest with
      | nil => exact absurd hl (linesList_ne_nil rest)
      | cons l ls =>
        have ih := linesList_flatten rest
        rw [hl, List.flatten_cons] at ih
        simp [List.flatten_cons, ih]

theorem linesList_length : ∀ xs : List Segment,
    (linesList xs).length = xs.countP (fun seg => seg.text == ['\n']) + 1
  | [] => by simp [linesList]
  | seg :: rest => by
    unfold linesList
    by_cases h : seg.text = ['\n']
    · simp [h, List.countP_cons, linesList_length rest]
    · simp only [if_neg h]
      cases hl : linesList rest with
      | nil => exact absurd hl (linesList_ne_nil rest)
      | cons l ls =>
        have ih := linesList_length rest
        rw [hl] at ih
        simp only [List.countP_cons, List.length_cons] at ih ⊢
        simp [h, ih]

/-- Claim C6, confirmed: concatenating in order the slices yielded by
the line partition reproduces the segment sequence exactly, and the
number of slices equals the number of newline-marker segments plus 1. -/
theorem lines_partition_reassembly_count :
    ∀ s : String,
      s.lines.flatten = s.segments ∧
      s.lines.length = s.segments.countP (fun seg => seg.text == ['\n']) + 1 := by
  intro s
  exact ⟨linesList_flatten s.segments, linesList_length s.segments⟩

theorem appendLineSegs_eq (sty : Style) (s : List Segment) (line : Str) :
    appendLineSegs sty s line = s ++ segsOfLine sty line := by
  unfold appendLineSegs segsOfLine
  by_cases h : (cutSuffixNewline line).2 <;> simp [h]

theorem foldl_appendLineSegs (sty : Style) :
    ∀ (L : List Str) (s : List Segment),
      L.foldl (appendLineSegs sty) s = s ++ L.flatMap (segsOfLine sty)
  | [], s => by simp
  | line :: L, s => by
    rw [List.foldl_cons, foldl_appendLineSegs sty L, appendLineSegs_eq]
    simp

theorem appendSegmentsFromText_eq_flatMap (s : List Segment) (t : Str) (sty : Style) :
    appendSegmentsFromText s t sty = s ++ (stringsLines t).flatMap (segsOfLine sty) := by
  unfold appendSegmentsFromText
  exact foldl_appendLineSegs sty _ s

theorem stringsLines_cons_newline (t : Str) :
    stringsLines ('\n' :: t) = ['\n'] :: stringsLines t := rfl

theorem stringsLines_cons (c : Char) (t : Str) (hc : c ≠ '\n') :
    stringsLines (c :: t) =
      match stringsLines t with
      | [] => [[c]]
      | l :: ls => (c :: l) :: ls := by
  conv_lhs => unfold stringsLines
  simp [hc]

theorem stringsLines_no_trailing_newline :
    ∀ t : Str, t ≠ [] → t.getLast? ≠ some '\n' →
      ∃ ls l, stringsLines t = ls ++ [l] ∧ l ≠ [] ∧ l.getLast? ≠ some '\n' ∧
        stringsLines (t ++ ['\n']) = ls ++ [l ++ ['\n']]
  | [], h, _ => absurd rfl h
  | [c], _, h2 => by
    have hc : c ≠ '\n' := by simpa using h2
    exact ⟨[], [c], by rw [stringsLines_cons c [] hc]; rfl, by simp, by simpa using h2,
      by rw [List.cons_append, List.nil_append, stringsLines_cons c ['\n'] hc]; rfl⟩
  | c :: d :: rest, _, h2 => by
    have h2' : (d :: rest).getLast? ≠ some '\n' := by
      rwa [List.getLast?_cons_cons] at h2
    obtain ⟨ls, l, hsl, hl, hln, hsl2⟩ :=
      stringsLines_no_trailing_newline (d :: rest) (by simp) h2'
    by_cases hc : c = '\n'
    · subst hc
      refine ⟨['\n'] :: ls, l, ?_, hl, hln, ?_⟩
      · rw [stringsLines_cons_newline, hsl]; rfl
      · rw [List.cons_append, stringsLines_cons_newline, hsl2]; rfl
    · cases ls with
      | nil =>
        have hgl : (c :: l).getLast? = l.getLast? := by
          cases l with
          | nil => exact absurd rfl hl
          | cons x xs => exact List.getLast?_cons_cons
        rw [List.nil_append] at hsl hsl2
        refine ⟨[], c :: l, ?_, by simp, by rw [hgl]; exact hln, ?_⟩
        · rw [stringsLines_cons c (d :: rest) hc, hsl]; rfl
        · rw [List.cons_append, stringsLines_cons c ((d :: rest) ++ ['\n']) hc, hsl2]; rfl
      | cons x ls' =>
        refine ⟨(c :: x) :: ls', l, ?_, hl, hln, ?_⟩
        · rw [stringsLines_cons c (d :: rest) hc, hsl]; rfl
        · rw [List.cons_append, stringsLines_cons c ((d :: rest) ++ ['\n']) hc, hsl2]; rfl

/-- Claim C7, confirmed: `Append` splits the text on line boundaries and
renders each line as a segment with the newline-stripped content
followed by a newline-marker segment exactly when a newline was
stripped; `"a\nb"` yields segments `[a, newline, b]`, `"a\n"` yields
`[a, newline]`, and for text that is nonempty and does not end in a
newline the last appended segment is nonempty and is not a marker, so
no trailing empty segment is synthesized. -/
theorem append_segments_line_splitting (t : Str) (h1 : t ≠ [])
    (h2 : t.getLast? ≠ some '\n') :
    (∀ (s : List Segment) (u : Str) (sty : Style),
      appendSegmentsFromText s u sty = s ++ (stringsLines u).flatMap (segsOfLine sty)) ∧
    (∀ sty : Style,
      appendSegmentsFromText [] (str "a\nb") sty =
        [⟨str "a", sty⟩, ⟨['\n'], sty⟩, ⟨str "b", sty⟩] ∧
      appendSegmentsFromText [] (str "a\n") sty = [⟨str "a", sty⟩, ⟨['\n'], sty⟩]) ∧
    (∀ sty : Style, ∃ lastSeg : Segment,
      (appendSegmentsFromText [] t sty).getLast? = some lastSeg ∧
      lastSeg.text ≠ [] ∧ lastSeg.text ≠ ['\n']) := by
  refine ⟨fun s u sty => appendSegmentsFromText_eq_flatMap s u sty, fun sty => ⟨rfl, rfl⟩, ?_⟩
  intro sty
  obtain ⟨ls, l, hsl, hl, hln, _⟩ := stringsLines_no_trailing_newline t h1 h2
  have hcut : cutSuffixNewline l = (l, false) := by simp [cutSuffixNewline, hln]
  have hseg : segsOfLine sty l = [⟨l, sty⟩] := by simp [segsOfLine, hcut]
  refine ⟨⟨l, sty⟩, ?_, hl, fun hcontra => hln (by rw [show l = ['\n'] from hcontra]; rfl)⟩
  rw [appendSegmentsFromText_eq_flatMap, hsl, List.nil_append, List.flatMap_append]
  simp [hseg]

/-- Witness for C7 at the text `"ab"` and a concrete style. -/
theorem append_segments_line_splitting_witness :
    ∃ lastSeg : Segment,
      (appendSegmentsFromText [] (str "ab") helloHStyle).getLast? = some lastSeg ∧
      lastSeg.text ≠ [] ∧ lastSeg.text ≠ ['\n'] :=
  (append_segments_line_splitting (str "ab") (by decide) (by decide)).2.2 helloHStyle

theorem foldl_max_sum {α : Type} (f g : α → ℚ) :
    ∀ (L : List α) (a b : ℚ),
      L.foldl (fun acc x => (max acc.1 (f x), acc.2 + g x)) (a, b) =
        ((L.map f).foldl max a, b + (L.map g).sum)
  | [], a, b => by simp
  | x :: L, a, b => by
    rw [List.foldl_cons, foldl_max_sum f g L]
    simp [add_assoc]

/-- Claim C5, confirmed: `Measure` returns primary = the fold of `max`
(from the accumulator's zero start) over each line's primary extent and
secondary = the sum over each line's secondary extent, mapped
primary→X, secondary→Y for horizontal directions and primary→Y,
secondary→X for vertical ones; a run built from `"Hello"` with
`advance("Hello") = 50` and `lineSize(0) = 20` measures (50, 20) under
the horizontal-LTR face and (20, 50) under the vertical face. -/
theorem measure_max_sum_axis_mapping :
    (∀ (s : String) (ls : ℚ),
      s.Measure ls =
        measureTotalsToDim s.direction
          ((s.lines.map (fun line => (measureLine line s.direction ls).1)).foldl max 0,
           (s.lines.map (fun line => (measureLine line s.direction ls).2)).sum)) ∧
    (helloHStyle.Apply (str "Hello")).Measure 0 = Dim 50 20 ∧
    (helloVStyle.Apply (str "Hello")).Measure 0 = Dim 20 50 := by
  refine ⟨?_, ?_, ?_⟩
  · intro s ls
    unfold String.Measure
    rw [foldl_max_sum (fun line => (measureLine line s.direction ls).1)
      (fun line => (measureLine line s.direction ls).2)]
    simp
  · simp +decide only [Style.Apply, StringBuilder.Append, zeroBuilder, StringBuilder.String,
      appendSegmentsFromText, appendLineSegs, stringsLines, cutSuffixNewline,
      String.Measure, measureTotalsToDim, String.lines, linesList, measureLine,
      measureStep, faceLineSize, helloHStyle, helloHFace, helloAdvance, str, List.foldl]
    norm_num [Dim, max_def]
  · simp +decide only [Style.Apply, StringBuilder.Append, zeroBuilder, StringBuilder.String,
      appendSegmentsFromText, appendLineSegs, stringsLines, cutSuffixNewline,
      String.Measure, measureTotalsToDim, String.lines, linesList, measureLine,
      measureStep, faceLineSize, helloVStyle, helloVFace, helloAdvance, str, List.foldl]
    norm_num [Dim, max_def]

theorem Style.Apply_eq (sty : Style) (t : Str) :
    sty.Apply t = ⟨appendSegmentsFromText [] t sty, sty.face.direction⟩ := by
  unfold Style.Apply StringBuilder.Append zeroBuilder
  simp [StringBuilder.String]

/-- Claim C1, counterexample: a direction mismatch makes `Append` and
`Concat` panic — the fault path — rather than return a
`DirectionMismatch` result to the caller, so the mismatch is an
unrecoverable fault as implemented, contradicting the claim. -/
theorem direction_mismatch_not_returned_as_result :
    (StringBuilder.Append vLockedEmptyBuilder (str "x") helloHStyle).isPanicked = true ∧
    (String.Concat ⟨[], .leftToRight⟩ (helloVStyle.Apply (str "x"))).isPanicked = true :=
  ⟨rfl, rfl⟩

/-- Claim C1, amended: a direction mismatch in `Append` or `Concat` is
signaled by a run-time panic (fault-based signaling), not by a
`DirectionMismatch` result; the failed operation still has no effect —
at the panic the builder's segment sequence and locked direction are
exactly as before the call, and `Concat` constructs no result. -/
theorem direction_mismatch_panics_state_unchanged
    (b : StringBuilder) (t : Str) (sty : Style)
    (hb : b.nonZero = true) (hdir : b.s.direction ≠ sty.face.direction)
    (u v : String) (huv : u.direction ≠ v.direction) :
    StringBuilder.Append b t sty = .panicked appendPanicMessage b ∧
    (StringBuilder.Append b t sty).isPanicked = true ∧
    String.Concat u v = .panicked concatPanicMessage ∧
    (String.Concat u v).isPanicked = true := by
  have h1 : StringBuilder.Append b t sty = .panicked appendPanicMessage b := by
    unfold StringBuilder.Append
    simp [hb, hdir]
  have h2 : String.Concat u v = .panicked concatPanicMessage := by
    unfold String.Concat
    simp [huv]
  exact ⟨h1, by rw [h1]; rfl, h2, by rw [h2]; rfl⟩

/-- Witness for C1: a vertically locked builder rejects a horizontal
style, and two runs of different directions cannot be concatenated. -/
theorem direction_mismatch_panics_state_unchanged_witness :
    StringBuilder.Append vLockedEmptyBuilder (str "x") helloHStyle =
      .panicked appendPanicMessage vLockedEmptyBuilder ∧
    (StringBuilder.Append vLockedEmptyBuilder (str "x") helloHStyle).isPanicked = true ∧
    String.Concat (helloHStyle.Apply (str "x")) (helloVStyle.Apply (str "y")) =
      .panicked concatPanicMessage ∧
    (String.Concat (helloHStyle.Apply (str "x"))
      (helloVStyle.Apply (str "y"))).isPanicked = true :=
  direction_mismatch_panics_state_unchanged vLockedEmptyBuilder (str "x") helloHStyle
    rfl (by simp [vLockedEmptyBuilder, helloHStyle, helloHFace])
    (helloHStyle.Apply (str "x")) (helloVStyle.Apply (str "y"))
    (by simp [Style.Apply_eq, helloHStyle, helloHFace, helloVStyle, helloVFace])

/-- Claim C9, counterexample: one `Append` of empty text under a
vertical style adds no segments yet locks the builder's direction, so a
later horizontal `Append` panics even though the builder still holds no
segments; and `Concat` of the zero-value empty run (direction field
left-to-right) with a vertical run panics instead of adopting the
vertical operand's direction. -/
theorem empty_append_locks_direction_counterexample :
    StringBuilder.Append zeroBuilder [] helloVStyle = .ok vLockedEmptyBuilder ∧
    vLockedEmptyBuilder.s.segments = [] ∧
    (StringBuilder.Append vLockedEmptyBuilder (str "z") helloHStyle).isPanicked = true ∧
    (String.Concat ⟨[], .leftToRight⟩ (helloVStyle.Apply (str "z"))).isPanicked = true :=
  ⟨rfl, rfl, rfl, rfl⟩

/-- Claim C9, amended: a builder on which `Append` has never been called
(`nonZero = false`) accepts an append of any direction; but the builder
locks its direction on the first `Append` call even when that call adds
no segments, so an empty segment list does not imply an unconstrained
direction and a later mismatched `Append` panics. `Concat` succeeds
exactly when the two direction fields are equal; an empty run carries
its direction field (left-to-right for the zero value) and never adopts
the other operand's direction. -/
theorem direction_lock_on_first_append
    (b : StringBuilder) (t : Str) (sty : Style) (hb : b.nonZero = false)
    (b2 : StringBuilder) (t2 : Str) (sty2 : Style) (hb2 : b2.nonZero = true)
    (hdir2 : b2.s.direction ≠ sty2.face.direction)
    (u v : String) (huv : u.direction = v.direction)
    (u2 v2 : String) (huv2 : u2.direction ≠ v2.direction) :
    (StringBuilder.Append b t sty).isPanicked = false ∧
    (StringBuilder.Append b2 t2 sty2).isPanicked = true ∧
    String.Concat u v = .ok ⟨u.segments ++ v.segments, u.direction⟩ ∧
    (String.Concat u2 v2).isPanicked = true := by
  refine ⟨?_, ?_, ?_, ?_⟩
  · unfold StringBuilder.Append
    simp [hb, AppendResult.isPanicked]
  · unfold StringBuilder.Append
    simp [hb2, hdir2, AppendResult.isPanicked]
  · unfold String.Concat
    simp [huv]
  · unfold String.Concat
    simp [huv2, ConcatResult.isPanicked]

/-- Witness for C9: the fresh builder accepts a vertical style; the
vertically locked empty builder rejects a horizontal one; equal-direction
runs concatenate; different-direction runs panic. -/
theorem direction_lock_on_first_append_witness :
    (StringBuilder.Append zeroBuilder [] helloVStyle).isPanicked = false ∧
    (StringBuilder.Append vLockedEmptyBuilder (str "w") helloHStyle).isPanicked = true ∧
    String.Concat (helloHStyle.Apply (str "w")) (helloHStyle.Apply (str "y")) =
      .ok ⟨(helloHStyle.Apply (str "w")).segments ++ (helloHStyle.Apply (str "y")).segments,
           (helloHStyle.Apply (str "w")).direction⟩ ∧
    (String.Concat ⟨[], .leftToRight⟩ (helloVStyle.Apply (str "w"))).isPanicked = true :=
  direction_lock_on_first_append zeroBuilder [] helloVStyle rfl
    vLockedEmptyBuilder (str "w") helloHStyle rfl
    (by simp [vLockedEmptyBuilder, helloHStyle, helloHFace])
    (helloHStyle.Apply (str "w")) (helloHStyle.Apply (str "y"))
    (by simp [Style.Apply_eq])
    ⟨[], .leftToRight⟩ (helloVStyle.Apply (str "w"))
    (by simp [Style.Apply_eq, helloVStyle, helloVFace])

/-- Claim C8, counterexample: the line partition of the run built from
`"\n\n"` yields 3 slices, not 2 — the loop yields one slice per newline
marker and then always yields the trailing remainder, here empty. -/
theorem two_newlines_not_two_lines :
    (helloHStyle.Apply (str "\n\n")).lines.length ≠ 2 ∧
    (helloHStyle.Apply (str "\n\n")).lines.length = 3 := by
  have h : (helloHStyle.Apply (str "\n\n")).lines.length = 3 := by
    rw [Style.Apply_eq]
    rfl
  exact ⟨by rw [h]; exact (by decide), h⟩

/-- Claim C8, amended: the text `"\n\n"` under one style produces
exactly 3 line slices — one per newline marker plus the always-yielded
trailing empty remainder; for any style whose face has zero advance on
empty text and a nonnegative line size (true of real font metrics), the
first two slices each measure `primaryLen = 0` and
`secondaryLen = faceLineSize(style.face, 0)`, while the trailing empty
slice measures `(0, 0)`. -/
theorem two_newlines_line_measures (sty : Style)
    (hadv : sty.face.advance [] = 0)
    (hsize : 0 ≤ faceLineSize sty.face sty.face.direction 0) :
    (sty.Apply (str "\n\n")).lines.length = 3 ∧
    (sty.Apply (str "\n\n")).lines.map
        (fun line => measureLine line (sty.Apply (str "\n\n")).direction 0) =
      [(0, faceLineSize sty.face sty.face.direction 0),
       (0, faceLineSize sty.face sty.face.direction 0), (0, 0)] := by
  have happ : sty.Apply (str "\n\n") =
      ⟨[⟨[], sty⟩, ⟨['\n'], sty⟩, ⟨[], sty⟩, ⟨['\n'], sty⟩], sty.face.direction⟩ := by
    rw [Style.Apply_eq]
    rfl
  rw [happ]
  refine ⟨rfl, ?_⟩
  have hlines :
      (String.mk [⟨[], sty⟩, ⟨['\n'], sty⟩, ⟨[], sty⟩, ⟨['\n'], sty⟩]
        sty.face.direction).lines =
      [[⟨[], sty⟩, ⟨['\n'], sty⟩], [⟨[], sty⟩, ⟨['\n'], sty⟩], ([] : List Segment)] := rfl
  rw [hlines]
  have hml :
      measureLine [⟨[], sty⟩, ⟨['\n'], sty⟩] sty.face.direction 0 =
        (0, faceLineSize sty.face sty.face.direction 0) := by
    unfold measureLine measureStep
    simp [hadv, max_eq_right hsize]
  simp only [List.map_cons, List.map_nil, hml,
    show measureLine ([] : List Segment) sty.face.direction 0 = (0, 0) from rfl]

/-- Witness for C8 at the concrete horizontal style. -/
theorem two_newlines_line_measures_witness :
    (helloHStyle.Apply (str "\n\n")).lines.length = 3 ∧
    (helloHStyle.Apply (str "\n\n")).lines.map
        (fun line => measureLine line (helloHStyle.Apply (str "\n\n")).direction 0) =
      [(0, faceLineSize helloHStyle.face helloHStyle.face.direction 0),
       (0, faceLineSize helloHStyle.face helloHStyle.face.direction 0), (0, 0)] :=
  two_newlines_line_measures helloHStyle
    (by simp +decide [helloHStyle, helloHFace, helloAdvance, str])
    (by norm_num [helloHStyle, helloHFace, faceLineSize])

theorem measureLine_foldl_eq (direction : TextDirection) (ls : ℚ) :
    ∀ (L : List Segment) (a b : ℚ),
      L.foldl (measureStep direction ls) (a, b) =
        (a + (L.map (fun seg =>
            if seg.text ≠ ['\n'] then seg.style.face.advance seg.text else 0)).sum,
         (L.map (fun seg => faceLineSize seg.style.face direction ls)).foldl max b)
  | [], a, b => by simp
  | seg :: L, a, b => by
    rw [List.foldl_cons, measureLine_foldl_eq direction ls L]
    by_cases h : seg.text ≠ ['\n'] <;> simp [measureStep, h, add_assoc]

theorem measureLine_eq (L : List Segment) (direction : TextDirection) (ls : ℚ) :
    measureLine L direction ls =
      ((L.map (fun seg =>
          if seg.text ≠ ['\n'] then seg.style.face.advance seg.text else 0)).sum,
       (L.map (fun seg => faceLineSize seg.style.face direction ls)).foldl max 0) := by
  unfold measureLine
  rw [measureLine_foldl_eq]
  simp

theorem init_le_foldl_max : ∀ (l : List ℚ) (b : ℚ), b ≤ l.foldl max b
  | [], b => le_refl b
  | x :: l, b => le_trans (le_max_left b x) (init_le_foldl_max l (max b x))

theorem le_foldl_max {α : Type} (f : α → ℚ) :
    ∀ (L : List α) (b : ℚ) (x : α), x ∈ L → f x ≤ (L.map f).foldl max b
  | [], _, x, hx => absurd hx (List.not_mem_nil x)
  | y :: L, b, x, hx => by
    rw [List.map_cons, List.foldl_cons]
    rcases List.mem_cons.mp hx with h | h
    · subst h
      exact le_trans (le_max_right b (f x)) (init_le_foldl_max _ _)
    · exact le_foldl_max f L (max b (f y)) x h

theorem modifyLast_cons_of_ne_nil {α : Type} (f : α → α) (a : α) (l : List α)
    (h : l ≠ []) : modifyLast f (a :: l) = a :: modifyLast f l := by
  cases l with
  | nil => exact absurd rfl h
  | cons x xs => rfl

theorem modifyLast_concat {α : Type} (f : α → α) :
    ∀ (init : List α) (a : α), modifyLast f (init ++ [a]) = init ++ [f a]
  | [], a => rfl
  | x :: init, a => by
    rw [List.cons_append, modifyLast_cons_of_ne_nil f x (init ++ [a]) (by simp),
      modifyLast_concat f init a, List.cons_append]

theorem linesList_concat_marker :
    ∀ (xs : List Segment) (m : Segment), m.text = ['\n'] →
      linesList (xs ++ [m]) = modifyLast (· ++ [m]) (linesList xs) ++ [[]]
  | [], m, hm => by
    rw [List.nil_append]
    unfold linesList
    simp [hm, linesList, modifyLast]
  | seg :: rest, m, hm => by
    rw [List.cons_append]
    by_cases h : seg.text = ['\n']
    · conv_lhs => unfold linesList
      rw [if_pos h, linesList_concat_marker rest m hm]
      conv_rhs => unfold linesList
      rw [if_pos h,
        modifyLast_cons_of_ne_nil _ _ (linesList rest) (linesList_ne_nil rest),
        List.cons_append]
    · conv_lhs => unfold linesList
      rw [if_neg h, linesList_concat_marker rest m hm]
      conv_rhs => unfold linesList
      rw [if_neg h]
      cases hl : linesList rest with
      | nil => exact absurd hl (linesList_ne_nil rest)
      | cons l lsl =>
        cases lsl with
        | nil => simp [modifyLast]
        | cons l2 ls2 =>
          rw [modifyLast_cons_of_ne_nil _ _ (l2 :: ls2) (by simp)]
          simp [modifyLast_cons_of_ne_nil]

theorem linesList_concat_nonmarker :
    ∀ (xs : List Segment) (x : Segment), x.text ≠ ['\n'] →
      linesList (xs ++ [x]) = modifyLast (· ++ [x]) (linesList xs)
  | [], x, hx => by
    rw [List.nil_append]
    unfold linesList
    simp [hx, linesList, modifyLast]
  | seg :: rest, x, hx => by
    rw [List.cons_append]
    by_cases h : seg.text = ['\n']
    · conv_lhs => unfold linesList
      rw [if_pos h, linesList_concat_nonmarker rest x hx]
      conv_rhs => unfold linesList
      rw [if_pos h,
        modifyLast_cons_of_ne_nil _ _ (linesList rest) (linesList_ne_nil rest)]
    · conv_lhs => unfold linesList
      rw [if_neg h, linesList_concat_nonmarker rest x hx]
      conv_rhs => unfold linesList
      rw [if_neg h]
      cases hl : linesList rest with
      | nil => exact absurd hl (linesList_ne_nil rest)
      | cons l lsl =>
        cases lsl with
        | nil => simp [modifyLast]
        | cons l2 ls2 =>
          rw [modifyLast_cons_of_ne_nil _ _ (l2 :: ls2) (by simp)]
          simp [modifyLast_cons_of_ne_nil]

theorem measure_mk (segs : List Segment) (d : TextDirection) (ls : ℚ) :
    (String.mk segs d).Measure ls =
      measureTotalsToDim d
        ((linesList segs).foldl
          (fun acc line =>
            (max acc.1 (measureLine line d ls).1,
             acc.2 + (measureLine line d ls).2))
          ((0 : ℚ), (0 : ℚ))) := rfl

theorem measure_append_marker (segs : List Segment) (sty0 : Style) (d : TextDirection)
    (ls : ℚ) (init0 : List (List Segment)) (la0 : List Segment)
    (hinit : linesList segs = init0 ++ [la0])
    (seg0 : Segment) (hmem : seg0 ∈ la0) (hsty : seg0.style = sty0) :
    (String.mk (segs ++ [⟨['\n'], sty0⟩]) d).Measure ls =
      (String.mk segs d).Measure ls := by
  rw [measure_mk, measure_mk, linesList_concat_marker segs ⟨['\n'], sty0⟩ rfl, hinit,
    modifyLast_concat]
  have hml1 : (measureLine (la0 ++ [(⟨['\n'], sty0⟩ : Segment)]) d ls).1 =
      (measureLine la0 d ls).1 := by
    rw [measureLine_eq, measureLine_eq]
    simp
  have hml2 : (measureLine (la0 ++ [(⟨['\n'], sty0⟩ : Segment)]) d ls).2 =
      (measureLine la0 d ls).2 := by
    rw [measureLine_eq, measureLine_eq]
    have hle : faceLineSize seg0.style.face d ls ≤
        (la0.map (fun seg => faceLineSize seg.style.face d ls)).foldl max 0 :=
      le_foldl_max _ la0 0 seg0 hmem
    rw [hsty] at hle
    dsimp only
    rw [List.map_append,
      show (List.map (fun seg => faceLineSize seg.style.face d ls)
        [(⟨['\n'], sty0⟩ : Segment)]) = [faceLineSize sty0.face d ls] from rfl,
      List.foldl_concat]
    exact max_eq_left hle
  rw [List.foldl_concat, List.foldl_concat, List.foldl_concat]
  have hmlnil : measureLine ([] : List Segment) d ls = (0, 0) := rfl
  have hP := foldl_max_sum (fun line => (measureLine line d ls).1)
    (fun line => (measureLine line d ls).2) init0 0 0
  dsimp only
  rw [hml1, hml2, hmlnil, hP]
  have h0 : (0 : ℚ) ≤
      max ((init0.map (fun line => (measureLine line d ls).1)).foldl max 0)
        (measureLine la0 d ls).1 :=
    le_trans (init_le_foldl_max _ 0) (le_max_left _ _)
  simp [max_eq_left h0]

/-- Claim C10, confirmed: for every style, line spacing, and nonempty
text `t` not ending in a newline, the run built from `t ++ "\n"` has
exactly the same `Measure` result as the run built from `t`: the
trailing marker joins the last line (affecting neither its primary sum
nor its secondary max, since the line already holds a same-styled
segment) and adds a final empty line slice contributing zero primary
and zero secondary extent. -/
theorem trailing_newline_measure_invariant (sty : Style) (ls : ℚ) (t : Str)
    (h1 : t ≠ []) (h2 : t.getLast? ≠ some '\n') :
    (sty.Apply (t ++ ['\n'])).Measure ls = (sty.Apply t).Measure ls := by
  obtain ⟨lns, l, hsl, hl, hln, hsl2⟩ := stringsLines_no_trailing_newline t h1 h2
  have hltext : l ≠ ['\n'] := fun hc => hln (by rw [hc]; rfl)
  have hcut : cutSuffixNewline l = (l, false) := by simp [cutSuffixNewline, hln]
  have hcut2 : cutSuffixNewline (l ++ ['\n']) = (l, true) := by
    simp [cutSuffixNewline, List.getLast?_concat, List.dropLast_concat]
  have hsegA : appendSegmentsFromText [] t sty =
      lns.flatMap (segsOfLine sty) ++ [⟨l, sty⟩] := by
    rw [appendSegmentsFromText_eq_flatMap, hsl, List.nil_append, List.flatMap_append]
    simp [segsOfLine, hcut]
  have hsegB : appendSegmentsFromText [] (t ++ ['\n']) sty =
      appendSegmentsFromText [] t sty ++ [⟨['\n'], sty⟩] := by
    rw [appendSegmentsFromText_eq_flatMap, hsl2, List.nil_append, List.flatMap_append,
      hsegA]
    simp [segsOfLine, hcut2]
  rw [Style.Apply_eq sty (t ++ ['\n']), Style.Apply_eq sty t, hsegB]
  obtain hnil | ⟨init0, la0, hinit⟩ :=
    (linesList (appendSegmentsFromText [] t sty)).eq_nil_or_concat
  · exact absurd hnil (linesList_ne_nil _)
  rw [List.concat_eq_append] at hinit
  have hmem : (⟨l, sty⟩ : Segment) ∈ la0 := by
    have h4 : linesList (appendSegmentsFromText [] t sty) =
        modifyLast (· ++ [⟨l, sty⟩]) (linesList (lns.flatMap (segsOfLine sty))) := by
      rw [hsegA]
      exact linesList_concat_nonmarker _ ⟨l, sty⟩ hltext
    obtain hn | ⟨init2, la2, hinit2⟩ :=
      (linesList (lns.flatMap (segsOfLine sty))).eq_nil_or_concat
    · exact absurd hn (linesList_ne_nil _)
    rw [List.concat_eq_append] at hinit2
    rw [hinit2, modifyLast_concat] at h4
    have h5 : some la0 = some (la2 ++ [(⟨l, sty⟩ : Segment)]) := by
      rw [← List.getLast?_concat init0, ← hinit, h4, List.getLast?_concat]
    rw [Option.some.injEq] at h5
    rw [h5]
    exact List.mem_append_right _ (List.mem_singleton_self _)
  exact measure_append_marker _ sty sty.face.direction ls init0 la0 hinit ⟨l, sty⟩ hmem rfl

/-- Witness for C10 at the text `"Hello"` and the concrete horizontal
style. -/
theorem trailing_newline_measure_invariant_witness :
    (helloHStyle.Apply (str "Hello" ++ ['\n'])).Measure 0 =
      (helloHStyle.Apply (str "Hello")).Measure 0 :=
  trailing_newline_measure_invariant helloHStyle 0 (str "Hello") (by decide) (by decide)

end Eep
